import Mathlib

/-!
web-terminal: the session relay between a SockJS transport and a remote shell.

A shallow embedding of `internal/terminal.go`, `terminal.go` and `terminalapi.go`.

* Go `string` values that travel over the transport are valid UTF-8 (SockJS frames are
  JSON-decoded text), they are Lean `String`s; `[]byte` buffers are `List Nat`.
* Go `error` values are `Option String` (`none` is `nil`, `some e` carries `e.Error()`).
* A `sockjs.Session` interface value is `Option Nat`: `none` is the nil interface, `some c`
  is the connection `c`.
* Channels are referenced by a `Nat` id; the values sent on a channel form a FIFO list.
* A Go panic is the `Except.error` branch of the functions that can panic.
-/

set_option autoImplicit false

/-! ## Data model (`internal/terminal.go`, lines 18-60) -/

/-- The Go constant `EndOfTransmission = "\u0004"`. -/
def EndOfTransmission : String := "\u0004"

/-- The Go struct `TerminalSize`; both fields are `uint16`. -/
structure TerminalSize where
  Width : Nat
  Height : Nat
deriving DecidableEq, Repr

/-- The Go struct `TerminalMessage`: `Op, Data, SessionID string; Rows, Cols uint16`. -/
structure TerminalMessage where
  Op : String
  Data : String
  SessionID : String
  Rows : Nat
  Cols : Nat
deriving DecidableEq, Repr

/-- The zero value of `TerminalMessage`, as declared by `var msg TerminalMessage`. -/
def TerminalMessage.zero : TerminalMessage :=
  { Op := "", Data := "", SessionID := "", Rows := 0, Cols := 0 }

/-! ## Go built-ins used by the relay -/

/-- The UTF-8 bytes of one rune, as Go stores it in a `string`. -/
def utf8Bytes (c : Char) : List Nat :=
  let n := c.toNat
  if n < 0x80 then [n]
  else if n < 0x800 then [0xC0 + n / 64, 0x80 + n % 64]
  else if n < 0x10000 then [0xE0 + n / 4096, 0x80 + n / 64 % 64, 0x80 + n % 64]
  else [0xF0 + n / 262144, 0x80 + n / 4096 % 64, 0x80 + n / 64 % 64, 0x80 + n % 64]

/-- The bytes of a Go string (the conversion `[]byte(s)`). -/
def goBytes (s : String) : List Nat := s.data.flatMap utf8Bytes

/-- Go's built-in `copy(dst, src)` from a string: it copies `min(len(dst), len(src))` bytes
and returns that count together with the destination after the copy. -/
def copy (dst : List Nat) (src : List Nat) : Nat × List Nat :=
  let n := min dst.length src.length
  (n, src.take n ++ dst.drop n)

/-! ## `encoding/json` as used on `TerminalMessage`

`json.Marshal` and `json.Unmarshal` are Go standard library; the model below follows
`encoding/json` for a struct of three `string` fields and two `uint16` fields without tags:
the encoder of `encode.go` (with HTML escaping, as `json.Marshal` has it) and the scanner
and decoder of `scanner.go` and `decode.go`. -/

namespace Json

/-- A parsed JSON value; a number keeps its literal text, as the Go decoder does. -/
inductive Value where
  | null
  | bool (b : Bool)
  | number (lit : List Char)
  | string (s : List Char)
  | array (xs : List Value)
  | object (kvs : List (List Char × Value))

/-- The table `hex = "0123456789abcdef"` of `encode.go`. -/
def hex (n : Nat) : Char := "0123456789abcdef".data.getD n '0'

/-- The table `htmlSafeSet` of `tables.go`, on ASCII: every printable character except
the quote, the ampersand, the angle brackets and the backslash. -/
def htmlSafeSet (c : Char) : Bool :=
  decide (0x20 ≤ c.toNat) && !(c = '"' || c = '&' || c = '<' || c = '>' || c = '\\')

/-- One step of the loop of `encodeState.string`, on a rune of a valid UTF-8 string. -/
def encodeRune (c : Char) : List Char :=
  if c.toNat < 0x80 then
    if htmlSafeSet c then [c]
    else if c = '\\' ∨ c = '"' then ['\\', c]
    else if c = '\n' then ['\\', 'n']
    else if c = '\r' then ['\\', 'r']
    else if c = '\t' then ['\\', 't']
    else ['\\', 'u', '0', '0', hex (c.toNat / 16), hex (c.toNat % 16)]
  else if c.toNat = 0x2028 ∨ c.toNat = 0x2029 then
    ['\\', 'u', '2', '0', '2', hex (c.toNat % 16)]
  else [c]

/-- The function `encodeState.string`: a quoted, escaped JSON string literal. -/
def encodeString (s : List Char) : List Char :=
  '"' :: (s.flatMap encodeRune ++ ['"'])

/-- The decimal text of an unsigned integer (`strconv.AppendUint(b, n, 10)`). -/
def encodeUint (n : Nat) : List Char := (Nat.repr n).data

/-- The function `json.Marshal` on a `TerminalMessage`: the fields in declaration order,
under their Go names, none omitted. It cannot fail on this type. -/
def Marshal (m : TerminalMessage) : String :=
  String.mk ("\x7b\"Op\":".data ++ encodeString m.Op.data
    ++ ",\"Data\":".data ++ encodeString m.Data.data
    ++ ",\"SessionID\":".data ++ encodeString m.SessionID.data
    ++ ",\"Rows\":".data ++ encodeUint m.Rows
    ++ ",\"Cols\":".data ++ encodeUint m.Cols ++ ['}'])

/-- The function `isSpace` of `scanner.go`. -/
def isSpace (c : Char) : Bool := c = ' ' || c = '\t' || c = '\r' || c = '\n'

/-- Skips insignificant white space. -/
def skipSpace : List Char → List Char
  | [] => []
  | c :: cs => if isSpace c then skipSpace cs else c :: cs

/-- The value of one hexadecimal digit, in either case. -/
def hexVal (c : Char) : Option Nat :=
  if 48 ≤ c.toNat ∧ c.toNat ≤ 57 then some (c.toNat - 48)
  else if 97 ≤ c.toNat ∧ c.toNat ≤ 102 then some (c.toNat - 87)
  else if 65 ≤ c.toNat ∧ c.toNat ≤ 70 then some (c.toNat - 55)
  else none

/-- The four hexadecimal digits of a `\u` escape (`getu4` of `decode.go`). -/
def getu4 (a b c d : Char) : Option Nat :=
  match hexVal a, hexVal b, hexVal c, hexVal d with
  | some a, some b, some c, some d => some (((a * 16 + b) * 16 + c) * 16 + d)
  | _, _, _, _ => none

/-- The rune `unicode.ReplacementChar`. -/
def replacementChar : Char := Char.ofNat 0xFFFD

/-- The function `utf16.DecodeRune`: the rune of a surrogate pair, or the replacement
character when the two code units are not a high and a low surrogate. -/
def decodeSurrogates (r1 r2 : Nat) : Char :=
  if 0xD800 ≤ r1 ∧ r1 < 0xDC00 ∧ 0xDC00 ≤ r2 ∧ r2 < 0xE000 then
    Char.ofNat ((r1 - 0xD800) * 1024 + (r2 - 0xDC00) + 0x10000)
  else replacementChar

/-- What the string scanner finds at the head of the input. -/
inductive Rune where
  | closing (rest : List Char)
  | rune (c : Char) (rest : List Char)
  | invalid

/-- The escape letters of `unquote` other than `u`. -/
def unescape (e : Char) : Option Char :=
  if e = '"' ∨ e = '\\' ∨ e = '/' then some e
  else if e = 'b' then some (Char.ofNat 8)
  else if e = 'f' then some (Char.ofNat 12)
  else if e = 'n' then some '\n'
  else if e = 'r' then some '\r'
  else if e = 't' then some '\t'
  else none

/-- The low half of a surrogate pair: the code unit of a `\u` escape at the head of the
input, when there is one (`getu4` of `decode.go` on the bytes that follow). -/
def peekU4 : List Char → Option (Nat × List Char)
  | b :: u :: k1 :: k2 :: k3 :: k4 :: rest =>
    if b = '\\' ∧ u = 'u' then (getu4 k1 k2 k3 k4).map fun r => (r, rest) else none
  | _ => none

/-- One rune of a string literal, after its opening quote: the scanner's string states
together with one iteration of `unquote` of `decode.go`. A control character, a bad escape
and the end of the input are invalid; a `\u` escape of a surrogate is paired with the
escape that follows it when the two form a valid pair, and is the replacement character
otherwise. -/
def nextRune : List Char → Rune
  | [] => .invalid
  | c :: cs =>
    if c = '"' then .closing cs
    else if c = '\\' then
      match cs with
      | [] => .invalid
      | e :: cs1 =>
        if e = 'u' then
          match cs1 with
          | h1 :: h2 :: h3 :: h4 :: cs2 =>
            match getu4 h1 h2 h3 h4 with
            | none => .invalid
            | some rr =>
              if 0xD800 ≤ rr ∧ rr < 0xE000 then
                match peekU4 cs2 with
                | some (rr1, cs3) =>
                  if decodeSurrogates rr rr1 ≠ replacementChar then
                    .rune (decodeSurrogates rr rr1) cs3
                  else .rune replacementChar cs2
                | none => .rune replacementChar cs2
              else .rune (Char.ofNat rr) cs2
          | _ => .invalid
        else
          match unescape e with
          | none => .invalid
          | some x => .rune x cs1
    else if c.toNat < 0x20 then .invalid
    else .rune c cs

/-- The body of a string literal, rune by rune; every step consumes input, so a fuel of
the length of the input is never exhausted. -/
def unquoteAux : Nat → List Char → Option (List Char × List Char)
  | 0, _ => none
  | fuel + 1, s =>
    match nextRune s with
    | .invalid => none
    | .closing rest => some ([], rest)
    | .rune c rest => (unquoteAux fuel rest).map fun r => (c :: r.1, r.2)

/-- A string literal after its opening quote: the decoded text and the input that follows
the closing quote. -/
def unquote (s : List Char) : Option (List Char × List Char) := unquoteAux s.length s

end Json

namespace Json

/-- The longest prefix of decimal digits, and what follows it. -/
def digits : List Char → List Char × List Char
  | [] => ([], [])
  | c :: cs =>
    if c.isDigit then ((digits cs).1.cons c, (digits cs).2) else ([], c :: cs)

/-- The integer part of a number literal: a single `0`, or a non-zero digit followed by
digits (the scanner's states `state0` and `state1`). -/
def scanInt (s : List Char) : Option (List Char × List Char) :=
  match s with
  | [] => none
  | c :: cs =>
    if c = '0' then some (['0'], cs)
    else if c.isDigit then some (c :: (digits cs).1, (digits cs).2)
    else none

/-- The optional fraction of a number literal: a dot followed by at least one digit. -/
def scanFrac (s : List Char) : Option (List Char × List Char) :=
  match s with
  | c :: cs =>
    if c = '.' then
      match digits cs with
      | ([], _) => none
      | (ds, rest) => some (c :: ds, rest)
    else some ([], s)
  | [] => some ([], s)

/-- The optional exponent of a number literal: `e` or `E`, an optional sign, and at least
one digit. -/
def scanExp (s : List Char) : Option (List Char × List Char) :=
  match s with
  | c :: cs =>
    if c = 'e' ∨ c = 'E' then
      let sign : List Char × List Char :=
        match cs with
        | x :: xs => if x = '+' ∨ x = '-' then ([x], xs) else ([], cs)
        | [] => ([], cs)
      match digits sign.2 with
      | ([], _) => none
      | (ds, rest) => some (c :: (sign.1 ++ ds), rest)
    else some ([], s)
  | [] => some ([], s)

/-- A number literal of the JSON grammar: its text and the input that follows. -/
def scanNumber (s : List Char) : Option (List Char × List Char) :=
  let neg : List Char × List Char :=
    match s with
    | c :: cs => if c = '-' then ([c], cs) else ([], s)
    | [] => ([], s)
  match scanInt neg.2 with
  | none => none
  | some (i, r1) =>
    match scanFrac r1 with
    | none => none
    | some (f, r2) =>
      match scanExp r2 with
      | none => none
      | some (e, r3) => some (neg.1 ++ i ++ f ++ e, r3)

/-- Strips a literal word (`true`, `false`, `null`) from the head of the input. -/
def stripWord : List Char → List Char → Option (List Char)
  | [], s => some s
  | _ :: _, [] => none
  | w :: ws, c :: cs => if w = c then stripWord ws cs else none

mutual

/-- One JSON value and the input that follows it, or `none` on a syntax error. Each call
consumes input before it recurses, so a fuel above the length of the input is never
exhausted. -/
def parseValue : Nat → List Char → Option (Value × List Char)
  | 0, _ => none
  | fuel + 1, s =>
    match skipSpace s with
    | [] => none
    | c :: cs =>
      if c = '{' then
        match skipSpace cs with
        | [] => none
        | c1 :: cs1 =>
          if c1 = '}' then some (.object [], cs1)
          else (parseMembers fuel (c1 :: cs1)).map fun r => (.object r.1, r.2)
      else if c = '[' then
        match skipSpace cs with
        | [] => none
        | c1 :: cs1 =>
          if c1 = ']' then some (.array [], cs1)
          else (parseElements fuel (c1 :: cs1)).map fun r => (.array r.1, r.2)
      else if c = '"' then (unquote cs).map fun r => (.string r.1, r.2)
      else if c = 't' then (stripWord "rue".data cs).map fun r => (.bool true, r)
      else if c = 'f' then (stripWord "alse".data cs).map fun r => (.bool false, r)
      else if c = 'n' then (stripWord "ull".data cs).map fun r => (.null, r)
      else (scanNumber (c :: cs)).map fun r => (.number r.1, r.2)

/-- The members of a non-empty object, up to and including its closing brace. -/
def parseMembers : Nat → List Char → Option (List (List Char × Value) × List Char)
  | 0, _ => none
  | fuel + 1, s =>
    match skipSpace s with
    | [] => none
    | q :: cs =>
      if q = '"' then
        match unquote cs with
        | none => none
        | some (key, r) =>
          match skipSpace r with
          | [] => none
          | colon :: r1 =>
            if colon = ':' then
              match parseValue fuel r1 with
              | none => none
              | some (v, r2) =>
                match skipSpace r2 with
                | [] => none
                | sep :: r3 =>
                  if sep = ',' then
                    (parseMembers fuel r3).map fun m => ((key, v) :: m.1, m.2)
                  else if sep = '}' then some ([(key, v)], r3)
                  else none
            else none
      else none

/-- The elements of a non-empty array, up to and including its closing bracket. -/
def parseElements : Nat → List Char → Option (List Value × List Char)
  | 0, _ => none
  | fuel + 1, s =>
    match parseValue fuel s with
    | none => none
    | some (v, r) =>
      match skipSpace r with
      | [] => none
      | sep :: r1 =>
        if sep = ',' then (parseElements fuel r1).map fun m => (v :: m.1, m.2)
        else if sep = ']' then some ([v], r1)
        else none

end

/-- The function `checkValid` of `scanner.go` together with the scan of `decode.go`: the
whole input is one JSON value between optional white space. -/
def parse (s : List Char) : Option Value :=
  match parseValue (s.length + 1) s with
  | none => none
  | some (v, rest) => if skipSpace rest = [] then some v else none

end Json

namespace Json

/-- The exported fields of `TerminalMessage`. -/
inductive Field where
  | Op | Data | SessionID | Rows | Cols
deriving DecidableEq, Repr

/-- The Go name of a field, which is also its JSON key. -/
def Field.name : Field → List Char
  | .Op => "Op".data
  | .Data => "Data".data
  | .SessionID => "SessionID".data
  | .Rows => "Rows".data
  | .Cols => "Cols".data

/-- The fields in declaration order. -/
def fields : List Field := [.Op, .Data, .SessionID, .Rows, .Cols]

/-- Case folding of a key rune, as far as it can reach an ASCII letter: the letters
themselves, the long s (U+017F) and the Kelvin sign (U+212A). -/
def foldRune (c : Char) : Char :=
  if 97 ≤ c.toNat ∧ c.toNat ≤ 122 then Char.ofNat (c.toNat - 32)
  else if c.toNat = 0x17F then 'S'
  else if c.toNat = 0x212A then 'K'
  else c

/-- The field a key of the object selects: the field of that exact name, else the first
field whose name matches under case folding, else none (the key is skipped). -/
def findField (key : List Char) : Option Field :=
  match fields.find? fun f => f.name = key with
  | some f => some f
  | none => fields.find? fun f => f.name.map foldRune = key.map foldRune

/-- The function `strconv.ParseUint(lit, 10, 64)` followed by the overflow check for a
`uint16`: the literal is decimal digits only and its value is at most 65535. -/
def parseUint16 (lit : List Char) : Option Nat :=
  if lit ≠ [] ∧ lit.all Char.isDigit then
    let n := lit.foldl (fun acc c => acc * 10 + (c.toNat - 48)) 0
    if n ≤ 65535 then some n else none
  else none

/-- Stores one member into the struct (`d.object` and `d.literalStore`): `null` leaves the
field as it is, a value of the wrong JSON type is an `UnmarshalTypeError` (`none`). -/
def store (m : TerminalMessage) (f : Field) (v : Value) : Option TerminalMessage :=
  match v with
  | .null => some m
  | .string s =>
    match f with
    | .Op => some { m with Op := String.mk s }
    | .Data => some { m with Data := String.mk s }
    | .SessionID => some { m with SessionID := String.mk s }
    | .Rows => none
    | .Cols => none
  | .number lit =>
    match f with
    | .Rows => (parseUint16 lit).map fun n => { m with Rows := n }
    | .Cols => (parseUint16 lit).map fun n => { m with Cols := n }
    | _ => none
  | _ => none

/-- Stores the members of an object in order; a later duplicate key overwrites an earlier
one. The decoder goes on after a type error and reports it at the end: the result is the
error whenever some member failed. -/
def storeAll : TerminalMessage → List (List Char × Value) → Option TerminalMessage
  | m, [] => some m
  | m, (key, v) :: rest =>
    match findField key with
    | none => storeAll m rest
    | some f =>
      match store m f v with
      | none => none
      | some m1 => storeAll m1 rest

/-- The function `json.Unmarshal(text, &msg)` on a zero `TerminalMessage`: the decoded
message, or the error. A syntax error leaves the text undecoded; at top level `null`
decodes to the zero message and any other non-object is a type error. -/
def Unmarshal (text : String) : Except String TerminalMessage :=
  match parse text.data with
  | none => .error "invalid character in JSON input"
  | some .null => .ok TerminalMessage.zero
  | some (.object kvs) =>
    match storeAll TerminalMessage.zero kvs with
    | some m => .ok m
    | none => .error "json: cannot unmarshal value into Go struct field of TerminalMessage"
  | some _ => .error "json: cannot unmarshal value into Go value of type TerminalMessage"

end Json

/-- Equality of Go results is decidable. -/
instance instDecidableEqExcept {ε α : Type} [DecidableEq ε] [DecidableEq α] :
    DecidableEq (Except ε α) := fun a b =>
  match a, b with
  | .ok x, .ok y => if h : x = y then isTrue (by rw [h]) else isFalse (by
      intro e; cases e; exact h rfl)
  | .error x, .error y => if h : x = y then isTrue (by rw [h]) else isFalse (by
      intro e; cases e; exact h rfl)
  | .ok _, .error _ => isFalse (by intro e; cases e)
  | .error _, .ok _ => isFalse (by intro e; cases e)

/-! ## The session handle (`internal/terminal.go`, lines 40-128) -/

/-- The Go struct `TerminalSession`. The channels `bound` and `sizeChan` and the interface
`sockJSSession` are references; `none` is the nil of the zero value. -/
structure TerminalSession where
  id : String
  bound : Option Nat
  sockJSSession : Option Nat
  sizeChan : Option Nat
deriving DecidableEq, Repr

/-- The zero value of `TerminalSession`, which a Go map returns for an absent key. -/
def TerminalSession.zero : TerminalSession :=
  { id := "", bound := none, sockJSSession := none, sizeChan := none }

/-- The values held by a `chan *TerminalSize`, oldest first; `none` is the nil pointer. -/
abbrev SizeChan := List (Option TerminalSize)

/-- The method `TerminalSession.Next`: it receives the next value of `sizeChan`. The
result is `none` while the channel holds nothing (the receive blocks); otherwise it is the
received pointer, which may be nil, and the channel without it. -/
def TerminalSession.Next (sizeChan : SizeChan) : Option (Option TerminalSize × SizeChan) :=
  match sizeChan with
  | [] => none
  | size :: rest => some (size, rest)

/-- What a call of `TerminalSession.Read` leaves behind: the returned `(n, err)`, the
buffer `p` after the call and the contents of `sizeChan` after the call. -/
structure ReadResult where
  n : Nat
  err : Option String
  p : List Nat
  sizeChan : SizeChan
deriving DecidableEq, Repr

/-- The method `TerminalSession.Read` of `internal/terminal.go`. `recv` is what
`t.sockJSSession.Recv()` returns, the message text or the error; `sizeChan` is what
`t.sizeChan` holds before the call. The send of the resize branch is taken by the resize
loop of `startNodeProcess`. In `terminal.go` of package `main` the failure and `stdin`
branches are the same, but nothing ever receives from `sizeChan` there: the send of its
resize branch does not complete and that `Read` does not return. -/
def TerminalSession.Read (recv : Except String String) (sizeChan : SizeChan)
    (p : List Nat) : ReadResult :=
  match recv with
  | .error err =>
    { n := (copy p (goBytes EndOfTransmission)).1, err := some err,
      p := (copy p (goBytes EndOfTransmission)).2, sizeChan := sizeChan }
  | .ok m =>
    match Json.Unmarshal m with
    | .error err =>
      { n := (copy p (goBytes EndOfTransmission)).1, err := some err,
        p := (copy p (goBytes EndOfTransmission)).2, sizeChan := sizeChan }
    | .ok msg =>
      if msg.Op = "stdin" then
        { n := (copy p (goBytes msg.Data)).1, err := none,
          p := (copy p (goBytes msg.Data)).2, sizeChan := sizeChan }
      else if msg.Op = "resize" then
        { n := 0, err := none, p := p,
          sizeChan := sizeChan ++ [some { Width := msg.Cols, Height := msg.Rows }] }
      else
        { n := (copy p (goBytes EndOfTransmission)).1,
          err := some ("unknown message type '" ++ msg.Op ++ "'"),
          p := (copy p (goBytes EndOfTransmission)).2, sizeChan := sizeChan }

/-- What a call of `TerminalSession.Write` leaves behind: the returned `(n, err)` and the
frame handed to `sockJSSession.Send`. -/
structure WriteResult where
  n : Nat
  err : Option String
  frame : String
deriving DecidableEq, Repr

/-- The method `TerminalSession.Write` on the bytes of `p`. `send` is what
`t.sockJSSession.Send` returns. `json.Marshal` cannot fail on a `TerminalMessage`. -/
def TerminalSession.Write (send : Option String) (p : String) : WriteResult :=
  let msg := Json.Marshal { Op := "stdout", Data := p, SessionID := "", Rows := 0, Cols := 0 }
  match send with
  | some err => { n := 0, err := some err, frame := msg }
  | none => { n := (goBytes p).length, err := none, frame := msg }

/-- The method `TerminalSession.Toast`: the frame sent and the returned error. -/
def TerminalSession.Toast (send : Option String) (p : String) : WriteResult :=
  let msg := Json.Marshal { Op := "toast", Data := p, SessionID := "", Rows := 0, Cols := 0 }
  { n := 0, err := send, frame := msg }

/-! ## The session registry (`internal/terminal.go`, lines 130-160) -/

/-- The Go struct `SessionMap`: the map `Sessions` as an association list in which the
first entry of a key is the entry of the map. The lock has no effect on a sequential run. -/
structure SessionMap where
  Sessions : List (String × TerminalSession)
deriving DecidableEq, Repr

/-- The initial value of the global `terminalSessions`. -/
def terminalSessions : SessionMap := { Sessions := [] }

/-- The method `SessionMap.Get`: the entry, or the zero value for an absent key. -/
def SessionMap.Get (sm : SessionMap) (sessionId : String) : TerminalSession :=
  (sm.Sessions.lookup sessionId).getD TerminalSession.zero

/-- The Go built-in `delete(m, key)`. -/
def SessionMap.delete (sm : SessionMap) (sessionId : String) : SessionMap :=
  { Sessions := sm.Sessions.filter fun e => decide (e.1 ≠ sessionId) }

/-- The method `SessionMap.Set`: the assignment `sm.Sessions[sessionId] = session`. -/
def SessionMap.Set (sm : SessionMap) (sessionId : String) (session : TerminalSession) :
    SessionMap :=
  { Sessions := (sessionId, session) :: (sm.delete sessionId).Sessions }

/-- A call `sockJSSession.Close(status, reason)` on the connection `conn`. -/
structure TransportClose where
  conn : Nat
  status : Nat
  reason : String
deriving DecidableEq, Repr

/-- The method `SessionMap.Close`. It calls `Close` on the `sockJSSession` of the map entry
and then deletes the entry. When the interface is nil (the key is absent, or the handle was
never bound) the method call panics, before the `delete`; the deferred `Unlock` still
runs. The result is the panic value, or the registry after the call and the transport
closed. -/
def SessionMap.Close (sm : SessionMap) (sessionId : String) (status : Nat)
    (reason : String) : Except String (SessionMap × TransportClose) :=
  match (sm.Get sessionId).sockJSSession with
  | none => .error "runtime error: invalid memory address or nil pointer dereference"
  | some conn => .ok (sm.delete sessionId, { conn := conn, status := status, reason := reason })

/-! ## The bind handshake (`internal/terminal.go`, lines 162-194) -/

/-- What `handleTerminalSession` leaves behind: the registry after the call, the line it
logged when it gave up, and, when it went through, the `bound` channel of its last
statement `terminalSession.bound <- nil`. How that send ends depends on the channel and is
given by `Handshake.send`; the registry is written before it. -/
structure Handshake where
  Sessions : SessionMap
  log : Option String
  signalled : Option (Option Nat)
deriving DecidableEq, Repr

/-- The function `handleTerminalSession` on the connection `session`, run on the registry
`sm`. `recv` is what `session.Recv()` returns. -/
def handleTerminalSession (sm : SessionMap) (session : Nat)
    (recv : Except String String) : Handshake :=
  match recv with
  | .error err =>
    { Sessions := sm, log := some ("handleTerminalSession: can't Recv: " ++ err),
      signalled := none }
  | .ok buf =>
    match Json.Unmarshal buf with
    | .error err =>
      { Sessions := sm,
        log := some ("handleTerminalSession: can't UnMarshal (" ++ err ++ "): " ++ buf),
        signalled := none }
    | .ok msg =>
      if msg.Op ≠ "bind" then
        { Sessions := sm,
          log := some ("handleTerminalSession: expected 'bind' message, got: " ++ buf),
          signalled := none }
      else if (sm.Get msg.SessionID).id = "" then
        { Sessions := sm,
          log := some ("handleTerminalSession: can't find session '" ++ msg.SessionID ++ "'"),
          signalled := none }
      else
        let terminalSession := { sm.Get msg.SessionID with sockJSSession := some session }
        { Sessions := sm.Set msg.SessionID terminalSession, log := none,
          signalled := some terminalSession.bound }

/-- How a send on an unbuffered channel ends. -/
inductive SendOutcome where
  | delivered
  | blocked
  | panicked (value : String)
deriving DecidableEq, Repr

/-- A send on the unbuffered channel `ch`: it panics on a closed channel, is delivered when
a goroutine is receiving from the channel, and blocks for ever otherwise, as it does on a
nil channel. `closed` are the channels closed so far and `receiving` the channels a
goroutine is receiving from. -/
def chanSend (ch : Option Nat) (closed receiving : List Nat) : SendOutcome :=
  match ch with
  | none => .blocked
  | some c =>
    if c ∈ closed then .panicked "send on closed channel"
    else if c ∈ receiving then .delivered
    else .blocked

/-- The last statement of `handleTerminalSession`, `terminalSession.bound <- nil`: `none`
when the handshake gave up before it. The channel `bound` is received from by
`WaitForNodeTerminal`, once, and closed by it right after. -/
def Handshake.send (h : Handshake) (closed receiving : List Nat) : Option SendOutcome :=
  h.signalled.map fun ch => chanSend ch closed receiving

/-! ## The relay driver (`internal/terminal.go`, lines 215-284; `terminal.go`, 226-289) -/

/-- What the remote-login collaborator does in one run: the error, if any, returned by
`sshConnect`, `session.RequestPty`, `session.Shell` and `session.Wait`. The function
`sshConnect` is not part of the listed sources; its result is an input of the run. -/
structure Ssh where
  connect : Option String
  requestPty : Option String
  shell : Option String
  wait : Option String
deriving DecidableEq, Repr

/-- The observable steps of a relay run, in program order. -/
inductive Effect where
  | closeBound (ch : Option Nat)
  | glogError (err : String)
  | requestPty (term : String) (h w : Nat)
  | shell
  | pump
  | wait
  | sessionClose
  | sendSize (ch : Option Nat) (size : Option TerminalSize)
  | terminate (sessionId : String) (status : Nat) (reason : String)
deriving DecidableEq, Repr

/-- How a Go function ends: it returns its `error` result, or it panics with a value. -/
inductive Outcome where
  | returned (err : Option String)
  | panicked (value : String)
deriving DecidableEq, Repr

/-- A run of `startNodeProcess`: how it ended and what it did. -/
structure Run where
  outcome : Outcome
  trace : List Effect
deriving DecidableEq, Repr

/-- One pass of the resize loop of `startNodeProcess` over the values of the channel: the
window changes `session.WindowChange(int(next.Height), int(next.Width))` issued so far,
whether the goroutine has returned, and what the channel still holds. -/
structure PumpRun where
  calls : List (Int × Int)
  exited : Bool
  sizeChan : SizeChan
deriving DecidableEq, Repr

/-- The goroutine of `startNodeProcess` that watches the terminal size: it calls `Next`,
returns on a nil pointer and issues a window change otherwise. With nothing left to
receive it is blocked in `Next`. -/
def resizePump : SizeChan → PumpRun
  | [] => { calls := [], exited := false, sizeChan := [] }
  | none :: rest => { calls := [], exited := true, sizeChan := rest }
  | some next :: rest =>
    { resizePump rest with
      calls := ((next.Height : Int), (next.Width : Int)) :: (resizePump rest).calls }

namespace Internal

/-- The function `startNodeProcess` of `internal/terminal.go`. The deferred
`session.Close()` runs on every exit after a successful connect, a panic included. -/
def startNodeProcess (ssh : Ssh) : Run :=
  match ssh.connect with
  | some err => { outcome := .returned (some err), trace := [.glogError err] }
  | none =>
    match ssh.requestPty with
    | some err =>
      { outcome := .returned (some err), trace := [.requestPty "xterm" 20 400, .sessionClose] }
    | none =>
      match ssh.shell with
      | some err =>
        { outcome := .panicked err,
          trace := [.requestPty "xterm" 20 400, .shell, .sessionClose] }
      | none =>
        match ssh.wait with
        | some err =>
          { outcome := .panicked err,
            trace := [.requestPty "xterm" 20 400, .shell, .pump, .wait, .sessionClose] }
        | none =>
          { outcome := .returned none,
            trace := [.requestPty "xterm" 20 400, .shell, .pump, .wait, .sessionClose] }

end Internal

namespace Main

/-- The function `startNodeProcess` of `terminal.go` (package `main`): a failed connect
panics too, and no goroutine watches the terminal size. -/
def startNodeProcess (ssh : Ssh) : Run :=
  match ssh.connect with
  | some err => { outcome := .panicked err, trace := [] }
  | none =>
    match ssh.requestPty with
    | some err =>
      { outcome := .returned (some err), trace := [.requestPty "xterm" 20 400, .sessionClose] }
    | none =>
      match ssh.shell with
      | some err =>
        { outcome := .panicked err,
          trace := [.requestPty "xterm" 20 400, .shell, .sessionClose] }
      | none =>
        match ssh.wait with
        | some err =>
          { outcome := .panicked err,
            trace := [.requestPty "xterm" 20 400, .shell, .wait, .sessionClose] }
        | none =>
          { outcome := .returned none,
            trace := [.requestPty "xterm" 20 400, .shell, .wait, .sessionClose] }

end Main

/-- A run of `WaitForNodeTerminal` from the moment the bind signal is received: the
registry after the run, the steps completed, the transport closed by `SessionMap.Close`,
the panic value when the run ended in a panic, and whether the run is stuck for ever in a
send that nothing receives. -/
structure Teardown where
  Sessions : SessionMap
  trace : List Effect
  closed : Option TransportClose
  panic : Option String
  blocked : Bool
deriving DecidableEq, Repr

/-- The call `terminalSessions.Close(sessionId, status, reason)` as the last step of a run
whose steps so far are `trace`. -/
def terminate (sm : SessionMap) (trace : List Effect) (sessionId : String) (status : Nat)
    (reason : String) : Teardown :=
  match sm.Close sessionId status reason with
  | .error value =>
    { Sessions := sm, trace := trace ++ [.terminate sessionId status reason],
      closed := none, panic := some value, blocked := false }
  | .ok (sm1, c) =>
    { Sessions := sm1, trace := trace ++ [.terminate sessionId status reason],
      closed := some c, panic := none, blocked := false }

namespace Internal

/-- The function `WaitForNodeTerminal` of `internal/terminal.go`, after its receive from
`bound`: it closes `bound`, runs `startNodeProcess`, sends the nil size, and closes the
session with status 2 and the error text, or with status 1 and `Process exited`. A panic of
`startNodeProcess` is not recovered: the statements after the call do not run. The channel
`sizeChan` is unbuffered (`make(chan TerminalSize)` in `terminalapi.go` is the only
construction in the sources) and its only receiver is the resize loop: when
`startNodeProcess` returned before it started the loop, the send of the nil size never
completes and the run stays in it. -/
def WaitForNodeTerminal (sm : SessionMap) (ssh : Ssh) (sessionId : String) : Teardown :=
  let run := startNodeProcess ssh
  let trace := Effect.closeBound (sm.Get sessionId).bound :: run.trace
  match run.outcome with
  | .panicked value =>
    { Sessions := sm, trace := trace, closed := none, panic := some value, blocked := false }
  | .returned err =>
    if Effect.pump ∈ run.trace then
      let trace := trace ++ [.sendSize (sm.Get sessionId).sizeChan none]
      match err with
      | some e => terminate sm trace sessionId 2 e
      | none => terminate sm trace sessionId 1 "Process exited"
    else
      { Sessions := sm, trace := trace, closed := none, panic := none, blocked := true }

end Internal

namespace Main

/-- The function `WaitForNodeTerminal` of `terminal.go` (package `main`), after its receive
from `bound`: as the other one, without the send of the nil size. -/
def WaitForNodeTerminal (sm : SessionMap) (ssh : Ssh) (sessionId : String) : Teardown :=
  let run := startNodeProcess ssh
  let trace := Effect.closeBound (sm.Get sessionId).bound :: run.trace
  match run.outcome with
  | .panicked value =>
    { Sessions := sm, trace := trace, closed := none, panic := some value, blocked := false }
  | .returned err =>
    match err with
    | some e => terminate sm trace sessionId 2 e
    | none => terminate sm trace sessionId 1 "Process exited"

end Main

/-! ## The creation endpoint (`terminalapi.go`, `return.go`, `terminal.go` 202-214) -/

/-- The Go struct `Host`, which `context.BindJSON` fills in from the body of a creation
request; its JSON keys are `ip`, `username`, `password` and `port`. -/
structure Host where
  Ip : String
  Username : String
  Password : String
  Port : Int
deriving DecidableEq, Repr

/-- The zero value of `Host`, as declared by `var host Host`. -/
def Host.zero : Host := { Ip := "", Username := "", Password := "", Port := 0 }

namespace Json

/-- The fields of `Host`. -/
inductive HostField where
  | Ip | Username | Password | Port
deriving DecidableEq, Repr

/-- The JSON key of a field of `Host`, from its struct tag. -/
def HostField.name : HostField → List Char
  | .Ip => "ip".data
  | .Username => "username".data
  | .Password => "password".data
  | .Port => "port".data

/-- The fields of `Host` in declaration order. -/
def hostFields : List HostField := [.Ip, .Username, .Password, .Port]

/-- The field of `Host` a key of the object selects: the exact name first, else the first
name that matches under case folding. -/
def findHostField (key : List Char) : Option HostField :=
  match hostFields.find? fun f => f.name = key with
  | some f => some f
  | none => hostFields.find? fun f => f.name.map foldRune = key.map foldRune

/-- The function `strconv.ParseInt(lit, 10, 64)` on a number literal, for a field of type
`int`: an optional minus sign and decimal digits only, within 64 bits. -/
def parseInt64 (lit : List Char) : Option Int :=
  let neg : Bool := lit.head? = some '-'
  let ds := if neg then lit.drop 1 else lit
  if ds ≠ [] ∧ ds.all Char.isDigit then
    let n : Nat := ds.foldl (fun acc c => acc * 10 + (c.toNat - 48)) 0
    if neg then (if n ≤ 9223372036854775808 then some (-(n : Int)) else none)
    else (if n ≤ 9223372036854775807 then some (n : Int) else none)
  else none

/-- Stores one member into a `Host`: `null` leaves the field as it is, a value of the
wrong JSON type is an `UnmarshalTypeError` (`none`) and leaves the field as it is too. -/
def storeHost (h : Host) (f : HostField) (v : Value) : Option Host :=
  match v with
  | .null => some h
  | .string s =>
    match f with
    | .Ip => some { h with Ip := String.mk s }
    | .Username => some { h with Username := String.mk s }
    | .Password => some { h with Password := String.mk s }
    | .Port => none
  | .number lit =>
    match f with
    | .Port => (parseInt64 lit).map fun n => { h with Port := n }
    | _ => none
  | _ => none

/-- Stores the members of an object into a `Host`, in order. The decoder notes a type
error and goes on with the next member: the result is the struct as filled in and whether
some member failed. -/
def storeHostAll : Host → List (List Char × Value) → Host × Bool
  | h, [] => (h, false)
  | h, (key, v) :: rest =>
    match findHostField key with
    | none => storeHostAll h rest
    | some f =>
      match storeHost h f v with
      | none => ((storeHostAll h rest).1, true)
      | some h1 => storeHostAll h1 rest

end Json

/-- What `context.BindJSON(&host)` leaves behind: the struct as filled in, and the error
it returned. -/
structure Binding where
  host : Host
  err : Option String
deriving DecidableEq, Repr

/-- The call `context.BindJSON(&host)` of gin on the request body: `json.NewDecoder` and
`Decode` read the first JSON value of the body and store it into `host` (what follows the
value is not read); the struct has no validation tags. A syntax error leaves `host` zero;
after a type error the other members are stored all the same. On an error gin writes the
status 400 at once (`AbortWithError`) and returns the error. -/
def BindJSON (body : String) : Binding :=
  match Json.parseValue (body.data.length + 1) body.data with
  | none => { host := Host.zero, err := some "invalid character in JSON input" }
  | some (.null, _) => { host := Host.zero, err := none }
  | some (.object kvs, _) =>
    { host := (Json.storeHostAll Host.zero kvs).1,
      err := if (Json.storeHostAll Host.zero kvs).2
        then some "json: cannot unmarshal value into Go struct field of Host" else none }
  | some _ =>
    { host := Host.zero, err := some "json: cannot unmarshal value into Go value of type Host" }

/-- The status the client receives for a `context.JSON(code, ...)`: the header is written
once, so after a failed `BindJSON` it stays the 400 that gin wrote. -/
def writtenStatus (bindErr : Option String) (code : Nat) : Nat :=
  match bindErr with
  | none => code
  | some _ => 400

/-- The table `hextable` of `encoding/hex`. -/
def hextable (n : Nat) : Char := "0123456789abcdef".data.getD n '0'

/-- The function `genTerminalSessionId`. `rand` is what `rand.Read` gives: an error, or the
16 random bytes, which are then hex-encoded. -/
def genTerminalSessionId (rand : Except String (List Nat)) : Except String String :=
  match rand with
  | .error err => .error err
  | .ok bytes => .ok (String.mk (bytes.flatMap fun b => [hextable (b / 16), hextable (b % 16)]))

/-- The constants `SUCCESS` and `FAIL` of `return.go`. -/
def SUCCESS : Nat := 0

/-- The constant `FAIL` of `return.go`. -/
def FAIL : Nat := 500

/-- A response written by `context.JSON`: the HTTP status, and the `code` of the envelope
with its `message` and the session id in `data` when the body is an envelope. -/
structure Response where
  status : Nat
  code : Option Nat
  message : String
  data : Option String
deriving DecidableEq, Repr

/-- The arguments of a launched `go WaitForNodeTerminal(ip, username, port, password,
sessionId)`. -/
structure Launch where
  ip : String
  username : String
  port : Int
  password : String
  sessionId : String
deriving DecidableEq, Repr

/-- What a call of `HandleExecNodeShell` leaves behind: the registry, the response, and
the driver it launched, if any. -/
structure Created where
  Sessions : SessionMap
  response : Response
  launched : Option Launch
deriving DecidableEq, Repr

/-- The function `HandleExecNodeShell` on the registry `sm`. `body` is the body of the
request, `rand` is what `rand.Read` gives in `genTerminalSessionId`, and `bound` and
`sizeChan` are the two channels made for the new handle. The result of `BindJSON` is
discarded by the handler, which goes on with `host` as it was filled in. -/
def HandleExecNodeShell (sm : SessionMap) (body : String) (rand : Except String (List Nat))
    (bound sizeChan : Nat) : Created :=
  let host := (BindJSON body).host
  let bindErr := (BindJSON body).err
  if host.Ip = "" ∨ host.Username = "" ∨ host.Password = "" then
    { Sessions := sm,
      response := { status := writtenStatus bindErr 400, code := none,
                    message := "Bad Request", data := none },
      launched := none }
  else
    let port := if host.Port = 0 then 22 else host.Port
    match genTerminalSessionId rand with
    | .error err =>
      { Sessions := sm,
        response := { status := writtenStatus bindErr 200, code := some FAIL,
                      message := err, data := none },
        launched := none }
    | .ok sessionId =>
      { Sessions := sm.Set sessionId
          { id := sessionId, bound := some bound, sockJSSession := none,
            sizeChan := some sizeChan },
        response := { status := writtenStatus bindErr 200, code := some SUCCESS,
                      message := "执行成功", data := some sessionId },
        launched := some { ip := host.Ip, username := host.Username, port := port,
                           password := host.Password, sessionId := sessionId } }

/-- The step is the call `terminalSessions.Close`. -/
def Effect.isTerminate : Effect → Bool
  | .terminate _ _ _ => true
  | _ => false

/-- The step is the send of the nil size, the terminator of the resize loop. -/
def Effect.isTerminator : Effect → Bool
  | .sendSize _ none => true
  | _ => false

/-! ## The codec: decoding what the encoder wrote -/

namespace Json


theorem hexVal_hex (k : Nat) (h : k < 16) : hexVal (hex k) = some k := by
  interval_cases k <;> rfl

theorem encodeRune_length_pos (c : Char) : 0 < (encodeRune c).length := by
  unfold encodeRune; split_ifs <;> simp

theorem char_eq_of_toNat (c : Char) (n : Nat) (h : c.toNat = n) : c = Char.ofNat n := by
  subst h; simp [Char.ofNat_toNat]

theorem getu4_ascii (n : Nat) (h : n < 256) :
    getu4 '0' '0' (hex (n / 16)) (hex (n % 16)) = some n := by
  have h1 : hexVal (hex (n / 16)) = some (n / 16) := hexVal_hex _ (by omega)
  have h2 : hexVal (hex (n % 16)) = some (n % 16) := hexVal_hex _ (by omega)
  have h0 : hexVal '0' = some 0 := rfl
  simp only [getu4, h0, h1, h2]
  congr 1; omega

theorem nextRune_encodeRune (c : Char) (s : List Char) :
    nextRune (encodeRune c ++ s) = .rune c s := by
  unfold encodeRune
  split_ifs with h1 h2 h3 h4 h5 h6 h7
  · simp [htmlSafeSet] at h2
    simp [nextRune, h2]
  · rcases h3 with rfl | rfl <;> simp [nextRune, unescape]
  · subst h4; simp [nextRune, unescape]
  · subst h5; simp [nextRune, unescape]
  · subst h6; simp [nextRune, unescape]
  · simp only [List.cons_append, List.nil_append, nextRune]
    simp [getu4_ascii c.toNat (by omega)]
    intro h; omega
  · have hc : c = Char.ofNat 0x2028 ∨ c = Char.ofNat 0x2029 := by
      rcases h7 with h | h
      · exact Or.inl (char_eq_of_toNat c _ h)
      · exact Or.inr (char_eq_of_toNat c _ h)
    rcases hc with rfl | rfl <;> rfl
  · simp only [List.singleton_append, nextRune]
    have ha : c ≠ '"' := by rintro rfl; simp at h1
    have hb : c ≠ '\\' := by rintro rfl; simp at h1
    simp [ha, hb]
    omega

theorem unquoteAux_encode (d rest : List Char) :
    ∀ fuel, (d.flatMap encodeRune).length + 1 ≤ fuel →
      unquoteAux fuel (d.flatMap encodeRune ++ '"' :: rest) = some (d, rest) := by
  induction d with
  | nil =>
    intro fuel h
    obtain ⟨f, rfl⟩ : ∃ f, fuel = f + 1 := ⟨fuel - 1, by omega⟩
    simp [unquoteAux, nextRune]
  | cons c d ih =>
    intro fuel h
    have hp := encodeRune_length_pos c
    simp only [List.flatMap_cons, List.length_append] at h
    obtain ⟨f, rfl⟩ : ∃ f, fuel = f + 1 := ⟨fuel - 1, by omega⟩
    simp only [List.flatMap_cons, List.append_assoc, unquoteAux, nextRune_encodeRune]
    rw [ih f (by omega)]
    rfl

theorem unquote_encode (d rest : List Char) :
    unquote (d.flatMap encodeRune ++ '"' :: rest) = some (d, rest) :=
  unquoteAux_encode d rest _ (by simp)

end Json

namespace Json

theorem skipSpace_quote (s : List Char) : skipSpace ('"' :: s) = '"' :: s := by
  simp [skipSpace, isSpace]

/-- The text `json.Marshal` writes for a message without a size, split at its strings. -/
theorem Marshal_data (op d sid : List Char) :
    (Marshal { Op := String.mk op, Data := String.mk d, SessionID := String.mk sid,
               Rows := 0, Cols := 0 }).data =
      '{' :: '"' :: ("Op".data.flatMap encodeRune ++ '"' :: ':' :: '"' ::
        (op.flatMap encodeRune ++ '"' :: ',' :: '"' ::
        ("Data".data.flatMap encodeRune ++ '"' :: ':' :: '"' ::
        (d.flatMap encodeRune ++ '"' :: ',' :: '"' ::
        ("SessionID".data.flatMap encodeRune ++ '"' :: ':' :: '"' ::
        (sid.flatMap encodeRune ++ '"' :: ',' :: '"' ::
        ("Rows".data.flatMap encodeRune ++ '"' :: ':' :: '0' :: ',' :: '"' ::
        ("Cols".data.flatMap encodeRune ++ '"' :: ':' :: '0' :: ['}'])))))))) := by
  simp only [Marshal, encodeString, List.append_assoc, List.cons_append, List.nil_append]
  rfl

theorem parseValue_string (fuel : Nat) (v rest : List Char) :
    parseValue (fuel + 1) ('"' :: (v.flatMap encodeRune ++ '"' :: rest))
      = some (.string v, rest) := by
  simp [parseValue, skipSpace_quote, unquote_encode]

theorem parseValue_zero (fuel : Nat) (c : Char) (rest : List Char) (h : c = ',' ∨ c = '}') :
    parseValue (fuel + 1) ('0' :: c :: rest) = some (.number ['0'], c :: rest) := by
  rcases h with rfl | rfl <;>
  simp [parseValue, skipSpace, isSpace, scanNumber, scanInt, scanFrac, scanExp]

/-- The members of the object `json.Marshal` writes for a message without a size. -/
theorem parseMembers_message (op d sid : List Char) (fuel : Nat) :
    parseMembers (fuel + 6) ('"' :: ("Op".data.flatMap encodeRune ++ '"' :: ':' :: '"' ::
        (op.flatMap encodeRune ++ '"' :: ',' :: '"' ::
        ("Data".data.flatMap encodeRune ++ '"' :: ':' :: '"' ::
        (d.flatMap encodeRune ++ '"' :: ',' :: '"' ::
        ("SessionID".data.flatMap encodeRune ++ '"' :: ':' :: '"' ::
        (sid.flatMap encodeRune ++ '"' :: ',' :: '"' ::
        ("Rows".data.flatMap encodeRune ++ '"' :: ':' :: '0' :: ',' :: '"' ::
        ("Cols".data.flatMap encodeRune ++ '"' :: ':' :: '0' :: ['}'])))))))))
      = some ([("Op".data, .string op), ("Data".data, .string d),
               ("SessionID".data, .string sid), ("Rows".data, .number ['0']),
               ("Cols".data, .number ['0'])], []) := by
  have hc : ∀ r : List Char, skipSpace (':' :: r) = ':' :: r := by
    intro r; simp [skipSpace, isSpace]
  have hm : ∀ r : List Char, skipSpace (',' :: r) = ',' :: r := by
    intro r; simp [skipSpace, isSpace]
  have hb : ∀ r : List Char, skipSpace ('}' :: r) = '}' :: r := by
    intro r; simp [skipSpace, isSpace]
  simp only [parseMembers, skipSpace_quote, unquote_encode, hc, hm, hb, parseValue_string,
    parseValue_zero _ ',' _ (Or.inl rfl), parseValue_zero _ '}' _ (Or.inr rfl)]
  simp

theorem parseValue_object (fuel : Nat) (body : List Char)
    (kvs : List (List Char × Value)) (rest : List Char)
    (h : parseMembers fuel ('"' :: body) = some (kvs, rest)) :
    parseValue (fuel + 1) ('{' :: '"' :: body) = some (.object kvs, rest) := by
  have hs : skipSpace ('{' :: '"' :: body) = '{' :: '"' :: body := by
    simp [skipSpace, isSpace]
  simp [parseValue, hs, skipSpace_quote, h]

theorem parse_marshal (op d sid : List Char) :
    parse (Marshal { Op := String.mk op, Data := String.mk d, SessionID := String.mk sid,
                     Rows := 0, Cols := 0 }).data
      = some (.object [("Op".data, .string op), ("Data".data, .string d),
               ("SessionID".data, .string sid), ("Rows".data, .number ['0']),
               ("Cols".data, .number ['0'])]) := by
  rw [Marshal_data]
  unfold parse
  have hlen : ∀ (body : List Char) (kvs : List (List Char × Value)),
      (∀ f, parseMembers (f + 6) ('"' :: body) = some (kvs, [])) →
      6 ≤ ('{' :: '"' :: body).length →
      parseValue (('{' :: '"' :: body).length + 1) ('{' :: '"' :: body)
        = some (.object kvs, []) := by
    intro body kvs h hl
    obtain ⟨f, hf⟩ : ∃ f, ('{' :: '"' :: body).length = f + 6 := ⟨_, (Nat.sub_add_cancel hl).symm⟩
    rw [hf]
    exact parseValue_object _ _ _ _ (h f)
  rw [hlen _ _ (parseMembers_message op d sid)
    (by simp only [List.length_cons, List.length_append]; omega)]
  simp [skipSpace]

theorem storeAll_message (op d sid : List Char) :
    storeAll TerminalMessage.zero [("Op".data, .string op), ("Data".data, .string d),
               ("SessionID".data, .string sid), ("Rows".data, .number ['0']),
               ("Cols".data, .number ['0'])]
      = some { Op := String.mk op, Data := String.mk d, SessionID := String.mk sid,
               Rows := 0, Cols := 0 } := by
  rfl

/-- Decoding what `json.Marshal` wrote for a message without a size gives the message. -/
theorem Unmarshal_Marshal (op d sid : String) :
    Unmarshal (Marshal { Op := op, Data := d, SessionID := sid, Rows := 0, Cols := 0 })
      = .ok { Op := op, Data := d, SessionID := sid, Rows := 0, Cols := 0 } := by
  cases op with | mk op => cases d with | mk d => cases sid with | mk sid =>
  rw [Unmarshal, parse_marshal]
  rfl

end Json

/-! ## The registry -/

theorem SessionMap.Get_of_lookup_none (sm : SessionMap) (sessionId : String)
    (h : sm.Sessions.lookup sessionId = none) : sm.Get sessionId = TerminalSession.zero := by
  simp [SessionMap.Get, h]

theorem SessionMap.Get_Set_same (sm : SessionMap) (sessionId : String)
    (session : TerminalSession) : (sm.Set sessionId session).Get sessionId = session := by
  simp [SessionMap.Get, SessionMap.Set, List.lookup]

theorem SessionMap.lookup_delete_other (l : List (String × TerminalSession))
    (sessionId other : String) (h : other ≠ sessionId) :
    (l.filter fun e => decide (e.1 ≠ sessionId)).lookup other = l.lookup other := by
  induction l with
  | nil => rfl
  | cons e l ih =>
    obtain ⟨k, v⟩ := e
    by_cases hk : k = sessionId
    · subst hk
      have h1 : (other == k) = false := by simpa using h
      simpa [List.filter, List.lookup, h1] using ih
    · by_cases ho : other = k
      · subst ho
        simp [List.filter, List.lookup, hk]
      · have h1 : (other == k) = false := by simpa using ho
        simpa [List.filter, List.lookup, hk, h1] using ih

theorem SessionMap.Get_Set_other (sm : SessionMap) (sessionId other : String)
    (session : TerminalSession) (h : other ≠ sessionId) :
    (sm.Set sessionId session).Get other = sm.Get other := by
  have h1 : (other == sessionId) = false := by simpa using h
  simp only [SessionMap.Get, SessionMap.Set, SessionMap.delete, List.lookup, h1]
  rw [SessionMap.lookup_delete_other _ _ _ h]

theorem SessionMap.delete_of_lookup_none (sm : SessionMap) (sessionId : String)
    (h : sm.Sessions.lookup sessionId = none) : sm.delete sessionId = sm := by
  obtain ⟨l⟩ := sm
  simp only [SessionMap.delete, SessionMap.mk.injEq]
  induction l with
  | nil => rfl
  | cons e l ih =>
    obtain ⟨k, v⟩ := e
    by_cases hk : sessionId = k
    · subst hk
      simp [List.lookup] at h
    · have h1 : (sessionId == k) = false := by simpa using hk
      simp only [List.lookup, h1] at h
      have hk2 : ¬ k = sessionId := fun e => hk e.symm
      have ih2 := ih h
      simp only [List.filter, hk2, ne_eq, not_false_eq_true, decide_True, List.cons.injEq,
        true_and]
      simpa using ih2

/-- Closing a session whose handle has a transport removes its entry and closes that
transport with the given status and reason. -/
theorem SessionMap.Close_bound (sm : SessionMap) (sessionId : String) (status : Nat)
    (reason : String) (conn : Nat) (h : (sm.Get sessionId).sockJSSession = some conn) :
    sm.Close sessionId status reason
      = .ok (sm.delete sessionId, { conn := conn, status := status, reason := reason }) := by
  simp [SessionMap.Close, h]

/-- Closing a session whose handle has no transport panics and removes nothing. -/
theorem SessionMap.Close_unbound (sm : SessionMap) (sessionId : String) (status : Nat)
    (reason : String) (h : (sm.Get sessionId).sockJSSession = none) :
    sm.Close sessionId status reason
      = .error "runtime error: invalid memory address or nil pointer dereference" := by
  simp [SessionMap.Close, h]

/-- C2 (the code departs from the claim): `SessionMap.Close` on a session id that is not in
the registry does not complete normally. The map yields the zero handle, whose
`sockJSSession` is the nil interface, and the call of its `Close` method panics. -/
theorem SessionMap.Close_absent_panics (sm : SessionMap) (sessionId : String) (status : Nat)
    (reason : String) (h : sm.Sessions.lookup sessionId = none) :
    sm.Close sessionId status reason
      = .error "runtime error: invalid memory address or nil pointer dereference" := by
  apply SessionMap.Close_unbound
  rw [SessionMap.Get_of_lookup_none sm sessionId h]
  rfl

theorem SessionMap.Close_absent_panics_witness :
    terminalSessions.Sessions.lookup "abc" = none ∧
    terminalSessions.Close "abc" 1 "Process exited"
      = .error "runtime error: invalid memory address or nil pointer dereference" :=
  ⟨rfl, SessionMap.Close_absent_panics terminalSessions "abc" 1 "Process exited" rfl⟩

/-! ## The bind handshake -/

/-- A handshake that names a registered session attaches its connection to the handle,
whatever the handle held before, and signals `bound`. -/
theorem handleTerminalSession_bind (sm : SessionMap) (session : Nat) (buf : String)
    (msg : TerminalMessage) (hdec : Json.Unmarshal buf = .ok msg) (hop : msg.Op = "bind")
    (hid : (sm.Get msg.SessionID).id ≠ "") :
    handleTerminalSession sm session (.ok buf) =
      { Sessions := sm.Set msg.SessionID
          { sm.Get msg.SessionID with sockJSSession := some session },
        log := none, signalled := some (sm.Get msg.SessionID).bound } := by
  simp [handleTerminalSession, hdec, hop, hid]

/-- C1 (the code departs from the claim): a bind handshake for a session id that is already
bound to the connection `c1` goes through on another connection `c2`: the registry entry
of the session now holds `c2` as its transport, and `bound` is signalled again. -/
theorem handleTerminalSession_rebinds (sm : SessionMap) (s : String) (c1 c2 : Nat)
    (buf : String) (msg : TerminalMessage)
    (hid : (sm.Get s).id ≠ "") (hbound : (sm.Get s).sockJSSession = some c1)
    (hne : c2 ≠ c1)
    (hdec : Json.Unmarshal buf = .ok msg) (hop : msg.Op = "bind") (hsid : msg.SessionID = s) :
    ((handleTerminalSession sm c2 (.ok buf)).Sessions.Get s).sockJSSession = some c2 ∧
    ((handleTerminalSession sm c2 (.ok buf)).Sessions.Get s).sockJSSession
      ≠ (sm.Get s).sockJSSession ∧
    (handleTerminalSession sm c2 (.ok buf)).signalled = some (sm.Get s).bound := by
  subst hsid
  rw [handleTerminalSession_bind sm c2 buf msg hdec hop hid]
  simp only [SessionMap.Get_Set_same, hbound]
  simp [hne]

theorem handleTerminalSession_rebinds_witness :
    ((handleTerminalSession
        { Sessions := [("s", { id := "s", bound := some 0, sockJSSession := some 1,
                               sizeChan := some 1 })] }
        2 (.ok "\x7b\"Op\":\"bind\",\"SessionID\":\"s\"\x7d")).Sessions.Get "s").sockJSSession
      = some 2 :=
  (handleTerminalSession_rebinds
    { Sessions := [("s", { id := "s", bound := some 0, sockJSSession := some 1,
                           sizeChan := some 1 })] }
    "s" 1 2 "\x7b\"Op\":\"bind\",\"SessionID\":\"s\"\x7d"
    { Op := "bind", Data := "", SessionID := "s", Rows := 0, Cols := 0 }
    (by decide) rfl (by decide) rfl rfl rfl).1

/-- A handshake that went through on a session whose `bound` channel was already closed, as
`WaitForNodeTerminal` closes it after the first bind, ends in the panic of a send on a
closed channel; the registry was written before. -/
theorem handleTerminalSession_send_closed (sm : SessionMap) (session : Nat) (buf : String)
    (msg : TerminalMessage) (ch : Nat) (closed receiving : List Nat)
    (hdec : Json.Unmarshal buf = .ok msg) (hop : msg.Op = "bind")
    (hid : (sm.Get msg.SessionID).id ≠ "") (hch : (sm.Get msg.SessionID).bound = some ch)
    (hclosed : ch ∈ closed) :
    (handleTerminalSession sm session (.ok buf)).send closed receiving
      = some (.panicked "send on closed channel") := by
  rw [handleTerminalSession_bind sm session buf msg hdec hop hid]
  simp [Handshake.send, chanSend, hch, hclosed]

/-- C10: a handshake whose first receive fails, whose first message does not decode, whose
`Op` is not `bind`, or whose `SessionID` is not a key of the registry leaves the registry
exactly as it was and signals no handle. -/
theorem handleTerminalSession_failed_bind (sm : SessionMap) (session : Nat)
    (recv : Except String String)
    (h : (∃ err, recv = .error err) ∨
         (∃ buf err, recv = .ok buf ∧ Json.Unmarshal buf = .error err) ∨
         (∃ buf msg, recv = .ok buf ∧ Json.Unmarshal buf = .ok msg ∧
            (msg.Op ≠ "bind" ∨ sm.Sessions.lookup msg.SessionID = none))) :
    (handleTerminalSession sm session recv).Sessions = sm ∧
    (handleTerminalSession sm session recv).signalled = none ∧
    (handleTerminalSession sm session recv).log ≠ none := by
  rcases h with ⟨err, rfl⟩ | ⟨buf, err, rfl, hdec⟩ | ⟨buf, msg, rfl, hdec, hop | hkey⟩
  · simp [handleTerminalSession]
  · simp [handleTerminalSession, hdec]
  · simp [handleTerminalSession, hdec, hop]
  · have hz : (sm.Get msg.SessionID).id = "" := by
      rw [SessionMap.Get_of_lookup_none sm _ hkey]; rfl
    by_cases hop : msg.Op = "bind" <;> simp [handleTerminalSession, hdec, hop, hz]

theorem handleTerminalSession_failed_bind_witness :
    (handleTerminalSession
        { Sessions := [("s", { id := "s", bound := some 0, sockJSSession := none,
                               sizeChan := some 1 })] }
        2 (.ok "\x7b\"Op\":\"bind\",\"SessionID\":\"unknown\"\x7d")).Sessions
      = { Sessions := [("s", { id := "s", bound := some 0, sockJSSession := none,
                               sizeChan := some 1 })] } :=
  (handleTerminalSession_failed_bind
    { Sessions := [("s", { id := "s", bound := some 0, sockJSSession := none,
                           sizeChan := some 1 })] }
    2 (.ok "\x7b\"Op\":\"bind\",\"SessionID\":\"unknown\"\x7d")
    (Or.inr (Or.inr ⟨"\x7b\"Op\":\"bind\",\"SessionID\":\"unknown\"\x7d",
      { Op := "bind", Data := "", SessionID := "unknown", Rows := 0, Cols := 0 },
      rfl, rfl, Or.inr rfl⟩))).1

/-! ## The byte source -/

theorem goBytes_EndOfTransmission : goBytes EndOfTransmission = [4] := by rfl

theorem copy_EndOfTransmission (p : List Nat) :
    (copy p [4]).1 = min p.length 1 ∧
    (copy p [4]).2.take (copy p [4]).1 = [4].take (copy p [4]).1 ∧
    (p ≠ [] → (copy p [4]).1 = 1 ∧ (copy p [4]).2.take (copy p [4]).1 = [4]) := by
  cases p with
  | nil => simp [copy]
  | cons b p => simp [copy]

/-- What `Read` returns when the receive, the decoding or the operation code fails. -/
theorem TerminalSession.Read_failure (recv : Except String String) (sizeChan : SizeChan)
    (p : List Nat)
    (h : (∃ err, recv = .error err) ∨
         (∃ m err, recv = .ok m ∧ Json.Unmarshal m = .error err) ∨
         (∃ m msg, recv = .ok m ∧ Json.Unmarshal m = .ok msg ∧
            msg.Op ≠ "stdin" ∧ msg.Op ≠ "resize")) :
    ∃ err, TerminalSession.Read recv sizeChan p =
      { n := (copy p [4]).1, err := some err, p := (copy p [4]).2, sizeChan := sizeChan } := by
  rcases h with ⟨err, rfl⟩ | ⟨m, err, rfl, hdec⟩ | ⟨m, msg, rfl, hdec, h1, h2⟩
  · exact ⟨err, by simp [TerminalSession.Read, goBytes_EndOfTransmission]⟩
  · exact ⟨err, by simp [TerminalSession.Read, hdec, goBytes_EndOfTransmission]⟩
  · exact ⟨_, by simp [TerminalSession.Read, hdec, h1, h2, goBytes_EndOfTransmission]; rfl⟩

/-- C3 (as stated, at the empty buffer): a failed receive into a buffer of length 0 reports
no byte at all, so the bytes read are not the end-of-transmission byte. -/
theorem TerminalSession.Read_failure_empty_buffer :
    (TerminalSession.Read (.error "EOF") [] []).err = some "EOF" ∧
    (TerminalSession.Read (.error "EOF") [] []).n = 0 ∧
    (TerminalSession.Read (.error "EOF") [] []).p.take
      (TerminalSession.Read (.error "EOF") [] []).n ≠ [4] := by
  decide

/-- C3 (amended): when the receive fails, the text does not decode, or the `Op` is neither
`stdin` nor `resize`, `Read` returns a non-nil error and enqueues no size event; it reports
`min(len(p), 1)` bytes, and for every non-empty buffer `p` that is exactly one byte,
the end-of-transmission byte 0x04. -/
theorem TerminalSession.Read_failure_terminator (recv : Except String String)
    (sizeChan : SizeChan) (p : List Nat)
    (h : (∃ err, recv = .error err) ∨
         (∃ m err, recv = .ok m ∧ Json.Unmarshal m = .error err) ∨
         (∃ m msg, recv = .ok m ∧ Json.Unmarshal m = .ok msg ∧
            msg.Op ≠ "stdin" ∧ msg.Op ≠ "resize")) :
    (TerminalSession.Read recv sizeChan p).err ≠ none ∧
    (TerminalSession.Read recv sizeChan p).sizeChan = sizeChan ∧
    (TerminalSession.Read recv sizeChan p).n = min p.length 1 ∧
    (p ≠ [] → (TerminalSession.Read recv sizeChan p).n = 1 ∧
      (TerminalSession.Read recv sizeChan p).p.take (TerminalSession.Read recv sizeChan p).n
        = [4]) := by
  obtain ⟨err, hr⟩ := TerminalSession.Read_failure recv sizeChan p h
  have hc := copy_EndOfTransmission p
  rw [hr]
  exact ⟨by simp, rfl, hc.1, hc.2.2⟩

theorem TerminalSession.Read_failure_terminator_witness :
    (TerminalSession.Read (.ok "\x7b\"Op\":\"exit\"\x7d") [] [0, 0, 0]).err ≠ none ∧
    (TerminalSession.Read (.ok "\x7b\"Op\":\"exit\"\x7d") [] [0, 0, 0]).n = 1 ∧
    (TerminalSession.Read (.ok "\x7b\"Op\":\"exit\"\x7d") [] [0, 0, 0]).p.take
      (TerminalSession.Read (.ok "\x7b\"Op\":\"exit\"\x7d") [] [0, 0, 0]).n = [4] :=
  have h := TerminalSession.Read_failure_terminator (.ok "\x7b\"Op\":\"exit\"\x7d") []
    [0, 0, 0]
    (Or.inr (Or.inr ⟨"\x7b\"Op\":\"exit\"\x7d",
      { Op := "exit", Data := "", SessionID := "", Rows := 0, Cols := 0 },
      rfl, rfl, by decide, by decide⟩))
  ⟨h.1, (h.2.2.2 (by decide)).1, (h.2.2.2 (by decide)).2⟩

/-- What `Read` returns on a `stdin` message: `copy` moves `min(len(p), len(Data))` bytes
of the payload into `p` and the rest of the payload is not kept anywhere. -/
theorem TerminalSession.Read_stdin (m : String) (msg : TerminalMessage)
    (sizeChan : SizeChan) (p : List Nat)
    (hdec : Json.Unmarshal m = .ok msg) (hop : msg.Op = "stdin") :
    TerminalSession.Read (.ok m) sizeChan p =
      { n := min p.length (goBytes msg.Data).length, err := none,
        p := (goBytes msg.Data).take (min p.length (goBytes msg.Data).length)
              ++ p.drop (min p.length (goBytes msg.Data).length),
        sizeChan := sizeChan } := by
  simp [TerminalSession.Read, hdec, hop, copy]

/-- A `stdin` payload that fits the buffer is read whole. -/
theorem TerminalSession.Read_stdin_fits (m : String) (msg : TerminalMessage)
    (sizeChan : SizeChan) (p : List Nat)
    (hdec : Json.Unmarshal m = .ok msg) (hop : msg.Op = "stdin")
    (hfit : (goBytes msg.Data).length ≤ p.length) :
    (TerminalSession.Read (.ok m) sizeChan p).err = none ∧
    (TerminalSession.Read (.ok m) sizeChan p).n = (goBytes msg.Data).length ∧
    (TerminalSession.Read (.ok m) sizeChan p).p.take (TerminalSession.Read (.ok m) sizeChan p).n
      = goBytes msg.Data := by
  rw [TerminalSession.Read_stdin m msg sizeChan p hdec hop]
  simp [Nat.min_eq_right hfit]

/-- C4 (the code departs from the claim): on a `stdin` message whose payload is longer than
the destination buffer, `Read` returns a nil error and a count `n = len(p)` that is smaller
than the byte length of the payload: `p[:n]` is only a prefix of the payload and the other
bytes are dropped. -/
theorem TerminalSession.Read_stdin_truncates (m : String) (msg : TerminalMessage)
    (sizeChan : SizeChan) (p : List Nat)
    (hdec : Json.Unmarshal m = .ok msg) (hop : msg.Op = "stdin")
    (hlong : p.length < (goBytes msg.Data).length) :
    (TerminalSession.Read (.ok m) sizeChan p).err = none ∧
    (TerminalSession.Read (.ok m) sizeChan p).n = p.length ∧
    (TerminalSession.Read (.ok m) sizeChan p).n < (goBytes msg.Data).length ∧
    (TerminalSession.Read (.ok m) sizeChan p).p = (goBytes msg.Data).take p.length ∧
    (TerminalSession.Read (.ok m) sizeChan p).p ≠ goBytes msg.Data := by
  rw [TerminalSession.Read_stdin m msg sizeChan p hdec hop]
  have hmin : min p.length (goBytes msg.Data).length = p.length := Nat.min_eq_left hlong.le
  simp only [hmin, List.drop_length, List.append_nil]
  refine ⟨trivial, trivial, hlong, trivial, ?_⟩
  intro h
  have hl := congrArg List.length h
  simp only [List.length_take] at hl
  omega

theorem TerminalSession.Read_stdin_truncates_witness :
    (TerminalSession.Read (.ok "\x7b\"Op\":\"stdin\",\"Data\":\"hello\"\x7d") [] [0, 0]).n = 2 ∧
    (TerminalSession.Read (.ok "\x7b\"Op\":\"stdin\",\"Data\":\"hello\"\x7d") [] [0, 0]).p
      = [104, 101] ∧
    goBytes "hello" = [104, 101, 108, 108, 111] :=
  have h := TerminalSession.Read_stdin_truncates
    "\x7b\"Op\":\"stdin\",\"Data\":\"hello\"\x7d"
    { Op := "stdin", Data := "hello", SessionID := "", Rows := 0, Cols := 0 } [] [0, 0]
    rfl rfl (by decide)
  ⟨h.2.1, h.2.2.2.1, by decide⟩

/-! ## Resize events -/

theorem resizePump_append (before : List TerminalSize) (rest : SizeChan) :
    (resizePump (before.map some ++ rest)).calls
      = before.map (fun s => ((s.Height : Int), (s.Width : Int))) ++ (resizePump rest).calls := by
  induction before with
  | nil => rfl
  | cons s before ih => simp [resizePump, ih]

/-- C5: on a `resize` message `Read` returns `(0, nil)`, leaves `p` as it was and enqueues
exactly one size event, of height `Rows` and width `Cols`; the resize loop that receives the
event issues exactly one window change for it, `WindowChange(Rows, Cols)`, after the window
changes of the events enqueued before it. -/
theorem TerminalSession.Read_resize (m : String) (msg : TerminalMessage)
    (sizeChan : SizeChan) (p : List Nat)
    (hdec : Json.Unmarshal m = .ok msg) (hop : msg.Op = "resize") :
    TerminalSession.Read (.ok m) sizeChan p =
      { n := 0, err := none, p := p,
        sizeChan := sizeChan ++ [some { Width := msg.Cols, Height := msg.Rows }] } ∧
    resizePump [some { Width := msg.Cols, Height := msg.Rows }] =
      { calls := [((msg.Rows : Int), (msg.Cols : Int))], exited := false, sizeChan := [] } ∧
    ∀ before : List TerminalSize,
      (resizePump (TerminalSession.Read (.ok m) (before.map some) p).sizeChan).calls =
        before.map (fun s => ((s.Height : Int), (s.Width : Int)))
          ++ [((msg.Rows : Int), (msg.Cols : Int))] := by
  have hne : msg.Op ≠ "stdin" := by rw [hop]; decide
  have hread : ∀ q : SizeChan, TerminalSession.Read (.ok m) q p =
      { n := 0, err := none, p := p,
        sizeChan := q ++ [some { Width := msg.Cols, Height := msg.Rows }] } := by
    intro q; simp [TerminalSession.Read, hdec, hop]
  refine ⟨hread sizeChan, rfl, ?_⟩
  intro before
  rw [hread, resizePump_append]
  rfl

theorem TerminalSession.Read_resize_witness :
    TerminalSession.Read (.ok "\x7b\"Op\":\"resize\",\"Rows\":40,\"Cols\":120\x7d") [] [7, 7] =
      { n := 0, err := none, p := [7, 7],
        sizeChan := [some { Width := 120, Height := 40 }] } ∧
    (resizePump (TerminalSession.Read
      (.ok "\x7b\"Op\":\"resize\",\"Rows\":40,\"Cols\":120\x7d") [] [7, 7]).sizeChan).calls
      = [(40, 120)] :=
  have h := TerminalSession.Read_resize "\x7b\"Op\":\"resize\",\"Rows\":40,\"Cols\":120\x7d"
    { Op := "resize", Data := "", SessionID := "", Rows := 40, Cols := 120 } [] [7, 7] rfl rfl
  ⟨h.1, h.2.2 []⟩

/-! ## Teardown -/

/-- On a clean exit `WaitForNodeTerminal` of `internal/terminal.go` sends the nil size once,
after the steps of `startNodeProcess`, and then calls `Close` once, with status 1 and
`Process exited`. -/
theorem Internal.WaitForNodeTerminal_clean_exit (sm : SessionMap) (ssh : Ssh)
    (sessionId : String)
    (hc : ssh.connect = none) (hp : ssh.requestPty = none) (hs : ssh.shell = none)
    (hw : ssh.wait = none) :
    (Internal.WaitForNodeTerminal sm ssh sessionId).trace =
      Effect.closeBound (sm.Get sessionId).bound :: (Internal.startNodeProcess ssh).trace
        ++ [.sendSize (sm.Get sessionId).sizeChan none,
            .terminate sessionId 1 "Process exited"] ∧
    (Internal.WaitForNodeTerminal sm ssh sessionId).blocked = false := by
  have hpump : Effect.pump ∈ (Internal.startNodeProcess ssh).trace := by
    simp [Internal.startNodeProcess, hc, hp, hs, hw]
  have hout : (Internal.startNodeProcess ssh).outcome = .returned none := by
    simp [Internal.startNodeProcess, hc, hp, hs, hw]
  simp only [Internal.WaitForNodeTerminal, hout, hpump, if_true, terminate]
  cases sm.Close sessionId 1 "Process exited" <;> simp

/-- On a failed connect or PTY request `startNodeProcess` of `internal/terminal.go` returns
the error before the resize loop exists, and `WaitForNodeTerminal` stays in the send of the
nil size: the send is never completed and `Close` is never called. -/
theorem Internal.WaitForNodeTerminal_early_failure (sm : SessionMap) (ssh : Ssh)
    (sessionId : String) (e : String)
    (h : ssh.connect = some e ∨ (ssh.connect = none ∧ ssh.requestPty = some e)) :
    (Internal.startNodeProcess ssh).outcome = .returned (some e) ∧
    (Internal.WaitForNodeTerminal sm ssh sessionId).blocked = true ∧
    (Internal.WaitForNodeTerminal sm ssh sessionId).trace.filter Effect.isTerminate = [] ∧
    (Internal.WaitForNodeTerminal sm ssh sessionId).trace.filter Effect.isTerminator = [] ∧
    (Internal.WaitForNodeTerminal sm ssh sessionId).closed = none ∧
    (Internal.WaitForNodeTerminal sm ssh sessionId).Sessions = sm := by
  rcases h with h | ⟨h1, h2⟩
  · simp [Internal.WaitForNodeTerminal, Internal.startNodeProcess, h, Effect.isTerminate,
      Effect.isTerminator]
  · simp [Internal.WaitForNodeTerminal, Internal.startNodeProcess, h1, h2,
      Effect.isTerminate, Effect.isTerminator]

/-- In package `main` a failed PTY request is returned and the session is closed with
status 2 and the error text. -/
theorem Main.WaitForNodeTerminal_pty_failure (sm : SessionMap) (ssh : Ssh)
    (sessionId : String) (e : String) (hc : ssh.connect = none)
    (hp : ssh.requestPty = some e) :
    (Main.WaitForNodeTerminal sm ssh sessionId).trace.filter Effect.isTerminate
      = [.terminate sessionId 2 e] := by
  simp only [Main.WaitForNodeTerminal, Main.startNodeProcess, hc, hp, terminate]
  split <;> simp [Effect.isTerminate]

/-- The relay of `internal/terminal.go` returns exactly when neither the shell start nor
the wait fails after a successful connect and PTY request; otherwise it panics. -/
theorem Internal.startNodeProcess_panics (ssh : Ssh) (e : String)
    (hc : ssh.connect = none) (hp : ssh.requestPty = none)
    (h : ssh.shell = some e ∨ (ssh.shell = none ∧ ssh.wait = some e)) :
    (Internal.startNodeProcess ssh).outcome = .panicked e := by
  rcases h with h | ⟨h1, h2⟩
  · simp [Internal.startNodeProcess, hc, hp, h]
  · simp [Internal.startNodeProcess, hc, hp, h1, h2]

/-- C6 (the code departs from the claim): when the shell start fails after a successful
connect and PTY request, `startNodeProcess` panics with the error and so does
`WaitForNodeTerminal`: `SessionMap.Close` is never called, no transport is closed and the
session stays in the registry. -/
theorem Internal.WaitForNodeTerminal_shell_failure (sm : SessionMap) (ssh : Ssh)
    (sessionId : String) (e : String)
    (hc : ssh.connect = none) (hp : ssh.requestPty = none) (hs : ssh.shell = some e) :
    (Internal.WaitForNodeTerminal sm ssh sessionId).panic = some e ∧
    (Internal.WaitForNodeTerminal sm ssh sessionId).trace.filter Effect.isTerminate = [] ∧
    (Internal.WaitForNodeTerminal sm ssh sessionId).closed = none ∧
    (Internal.WaitForNodeTerminal sm ssh sessionId).Sessions = sm := by
  simp [Internal.WaitForNodeTerminal, Internal.startNodeProcess, hc, hp, hs,
    Effect.isTerminate]

theorem Internal.WaitForNodeTerminal_shell_failure_witness :
    (Internal.WaitForNodeTerminal
      { Sessions := [("s", { id := "s", bound := some 0, sockJSSession := some 1,
                             sizeChan := some 1 })] }
      { connect := none, requestPty := none, shell := some "ssh: shell refused", wait := none }
      "s").panic = some "ssh: shell refused" ∧
    (Internal.WaitForNodeTerminal
      { Sessions := [("s", { id := "s", bound := some 0, sockJSSession := some 1,
                             sizeChan := some 1 })] }
      { connect := none, requestPty := none, shell := some "ssh: shell refused", wait := none }
      "s").trace.filter Effect.isTerminate = [] :=
  have h := Internal.WaitForNodeTerminal_shell_failure
    { Sessions := [("s", { id := "s", bound := some 0, sockJSSession := some 1,
                           sizeChan := some 1 })] }
    { connect := none, requestPty := none, shell := some "ssh: shell refused", wait := none }
    "s" "ssh: shell refused" rfl rfl rfl
  ⟨h.1, h.2.1⟩

/-- In package `main` a failed connect panics as well, and `Close` is not called. -/
theorem Main.WaitForNodeTerminal_connect_failure (sm : SessionMap) (ssh : Ssh)
    (sessionId : String) (e : String) (hc : ssh.connect = some e) :
    (Main.WaitForNodeTerminal sm ssh sessionId).panic = some e ∧
    (Main.WaitForNodeTerminal sm ssh sessionId).trace.filter Effect.isTerminate = [] ∧
    (Main.WaitForNodeTerminal sm ssh sessionId).Sessions = sm := by
  simp [Main.WaitForNodeTerminal, Main.startNodeProcess, hc, Effect.isTerminate]

/-- C7 (the code departs from the claim): when the wait step fails, `startNodeProcess`
panics after the resize loop was started, and `WaitForNodeTerminal` never reaches the send
of the nil size: the terminator is sent zero times on this failure. -/
theorem Internal.WaitForNodeTerminal_wait_failure (sm : SessionMap) (ssh : Ssh)
    (sessionId : String) (e : String)
    (hc : ssh.connect = none) (hp : ssh.requestPty = none) (hs : ssh.shell = none)
    (hw : ssh.wait = some e) :
    (Internal.WaitForNodeTerminal sm ssh sessionId).panic = some e ∧
    Effect.pump ∈ (Internal.WaitForNodeTerminal sm ssh sessionId).trace ∧
    (Internal.WaitForNodeTerminal sm ssh sessionId).trace.filter Effect.isTerminator = [] := by
  simp [Internal.WaitForNodeTerminal, Internal.startNodeProcess, hc, hp, hs, hw,
    Effect.isTerminator]

theorem Internal.WaitForNodeTerminal_wait_failure_witness :
    (Internal.WaitForNodeTerminal
      { Sessions := [("s", { id := "s", bound := some 0, sockJSSession := some 1,
                             sizeChan := some 1 })] }
      { connect := none, requestPty := none, shell := none, wait := some "EOF" }
      "s").panic = some "EOF" ∧
    (Internal.WaitForNodeTerminal
      { Sessions := [("s", { id := "s", bound := some 0, sockJSSession := some 1,
                             sizeChan := some 1 })] }
      { connect := none, requestPty := none, shell := none, wait := some "EOF" }
      "s").trace.filter Effect.isTerminator = [] :=
  have h := Internal.WaitForNodeTerminal_wait_failure
    { Sessions := [("s", { id := "s", bound := some 0, sockJSSession := some 1,
                           sizeChan := some 1 })] }
    { connect := none, requestPty := none, shell := none, wait := some "EOF" }
    "s" "EOF" rfl rfl rfl rfl
  ⟨h.1, h.2.2⟩

/-- In package `main` no run of `WaitForNodeTerminal` sends the nil size, a clean exit
included. -/
theorem Main.WaitForNodeTerminal_no_terminator (sm : SessionMap) (ssh : Ssh)
    (sessionId : String) :
    (Main.WaitForNodeTerminal sm ssh sessionId).trace.filter Effect.isTerminator = [] := by
  obtain ⟨c, p, s, w⟩ := ssh
  cases c <;> cases p <;> cases s <;> cases w <;>
    simp [Main.WaitForNodeTerminal, Main.startNodeProcess, terminate, Effect.isTerminator] <;>
    split <;> simp [Effect.isTerminator]

/-! ## The codec -/

/-- C8: for every payload string `d`, the frame `TerminalSession.Write` builds with
`json.Marshal` decodes with `json.Unmarshal`, as `TerminalSession.Read` decodes it, to the
message of `Op` `stdout` and `Data` `d`, with an empty `SessionID` and `Rows = Cols = 0`. -/
theorem TerminalSession.Write_frame_round_trip (send : Option String) (d : String) :
    Json.Unmarshal (TerminalSession.Write send d).frame
      = .ok { Op := "stdout", Data := d, SessionID := "", Rows := 0, Cols := 0 } := by
  have h : (TerminalSession.Write send d).frame
      = Json.Marshal { Op := "stdout", Data := d, SessionID := "", Rows := 0, Cols := 0 } := by
    cases send <;> rfl
  rw [h, Json.Unmarshal_Marshal]

/-- The frame of the payload `hello` and of a payload holding U+0004, and their decoding. -/
theorem TerminalSession.Write_frame_examples :
    (TerminalSession.Write none "hello").frame
      = "\x7b\"Op\":\"stdout\",\"Data\":\"hello\",\"SessionID\":\"\",\"Rows\":0,\"Cols\":0\x7d" ∧
    (TerminalSession.Write none "a\x04b").frame
      = "\x7b\"Op\":\"stdout\",\"Data\":\"a\\u0004b\",\"SessionID\":\"\",\"Rows\":0,\"Cols\":0\x7d" ∧
    Json.Unmarshal
      "\x7b\"Op\":\"stdout\",\"Data\":\"a\\u0004b\",\"SessionID\":\"\",\"Rows\":0,\"Cols\":0\x7d"
      = .ok { Op := "stdout", Data := "a\x04b", SessionID := "", Rows := 0, Cols := 0 } := by
  refine ⟨by rfl, by rfl, by rfl⟩

/-! ## The creation endpoint -/

theorem writtenStatus_none (code : Nat) : writtenStatus none code = code := rfl

/-- A request in which `ip`, `username` or `password` is empty after the binding is
answered with status 400, registers nothing and launches nothing, whatever `BindJSON`
returned. -/
theorem HandleExecNodeShell_empty_field (sm : SessionMap) (body : String)
    (rand : Except String (List Nat)) (bound sizeChan : Nat)
    (h : (BindJSON body).host.Ip = "" ∨ (BindJSON body).host.Username = "" ∨
         (BindJSON body).host.Password = "") :
    (HandleExecNodeShell sm body rand bound sizeChan).response.status = 400 ∧
    (HandleExecNodeShell sm body rand bound sizeChan).Sessions = sm ∧
    (HandleExecNodeShell sm body rand bound sizeChan).launched = none := by
  cases hb : (BindJSON body).err <;> simp [HandleExecNodeShell, h, hb, writtenStatus]

/-- A request whose binding failed after it had filled in `ip`, `username` and `password`
has the status 400 that gin wrote, and yet the handler, which discards the result of
`BindJSON`, registers a handle and launches the driver for it. -/
theorem HandleExecNodeShell_bind_error (sm : SessionMap) (body : String)
    (rand : Except String (List Nat)) (bound sizeChan : Nat) (err sessionId : String)
    (hb : (BindJSON body).err = some err)
    (h : ¬ ((BindJSON body).host.Ip = "" ∨ (BindJSON body).host.Username = "" ∨
            (BindJSON body).host.Password = ""))
    (hid : genTerminalSessionId rand = .ok sessionId) :
    (HandleExecNodeShell sm body rand bound sizeChan).response.status = 400 ∧
    (HandleExecNodeShell sm body rand bound sizeChan).Sessions.Get sessionId =
      { id := sessionId, bound := some bound, sockJSSession := none,
        sizeChan := some sizeChan } ∧
    (HandleExecNodeShell sm body rand bound sizeChan).launched =
      some { ip := (BindJSON body).host.Ip, username := (BindJSON body).host.Username,
             port := if (BindJSON body).host.Port = 0 then 22 else (BindJSON body).host.Port,
             password := (BindJSON body).host.Password, sessionId := sessionId } := by
  simp only [HandleExecNodeShell, h, hb, hid, if_false, writtenStatus]
  exact ⟨trivial, SessionMap.Get_Set_same _ _ _, trivial⟩

/-- C9 (as stated, at two requests). A request with all three fields whose id generation
fails (`rand.Read` returns an error) is not rejected with status 400, and yet it registers
no handle and launches no driver: the answer is the failure envelope. A request with all
three fields and a `port` of the wrong JSON type is answered with status 400, gin having
written it in `BindJSON`, and yet it registers a handle and launches the driver. -/
theorem HandleExecNodeShell_id_failure :
    ((HandleExecNodeShell terminalSessions
        "\x7b\"ip\":\"10.0.0.1\",\"username\":\"u\",\"password\":\"p\",\"port\":0\x7d"
        (.error "no entropy") 0 1).response.status ≠ 400 ∧
     (HandleExecNodeShell terminalSessions
        "\x7b\"ip\":\"10.0.0.1\",\"username\":\"u\",\"password\":\"p\",\"port\":0\x7d"
        (.error "no entropy") 0 1).Sessions = terminalSessions ∧
     (HandleExecNodeShell terminalSessions
        "\x7b\"ip\":\"10.0.0.1\",\"username\":\"u\",\"password\":\"p\",\"port\":0\x7d"
        (.error "no entropy") 0 1).launched = none) ∧
    ((BindJSON
        "\x7b\"ip\":\"10.0.0.1\",\"username\":\"u\",\"password\":\"p\",\"port\":\"22\"\x7d").host
        = { Ip := "10.0.0.1", Username := "u", Password := "p", Port := 0 } ∧
     (HandleExecNodeShell terminalSessions
        "\x7b\"ip\":\"10.0.0.1\",\"username\":\"u\",\"password\":\"p\",\"port\":\"22\"\x7d"
        (.ok [0, 1, 2, 3, 4, 5, 6, 7, 8, 9, 10, 11, 12, 13, 14, 255]) 0 1).response.status
        = 400 ∧
     (HandleExecNodeShell terminalSessions
        "\x7b\"ip\":\"10.0.0.1\",\"username\":\"u\",\"password\":\"p\",\"port\":\"22\"\x7d"
        (.ok [0, 1, 2, 3, 4, 5, 6, 7, 8, 9, 10, 11, 12, 13, 14, 255]) 0 1).Sessions
        ≠ terminalSessions ∧
     (HandleExecNodeShell terminalSessions
        "\x7b\"ip\":\"10.0.0.1\",\"username\":\"u\",\"password\":\"p\",\"port\":\"22\"\x7d"
        (.ok [0, 1, 2, 3, 4, 5, 6, 7, 8, 9, 10, 11, 12, 13, 14, 255]) 0 1).launched
        = some { ip := "10.0.0.1", username := "u", port := 22, password := "p",
                 sessionId := "000102030405060708090a0b0c0d0eff" }) := by
  refine ⟨⟨?_, ?_, ?_⟩, ?_, ?_, ?_, ?_⟩ <;> decide

/-- C9 (amended): for a creation request whose body `BindJSON` decodes without an error,
the request is answered with status 400 if and only if its ip, username or password is
empty, and such a request leaves the registry unchanged and launches no driver; a request
that is not rejected and whose session id is generated registers one pending handle under
that id and launches the driver for it, with port 22 when the request's port is 0 and with
the request's port otherwise. -/
theorem HandleExecNodeShell_spec (sm : SessionMap) (body : String)
    (rand : Except String (List Nat)) (bound sizeChan : Nat)
    (hbind : (BindJSON body).err = none) :
    ((HandleExecNodeShell sm body rand bound sizeChan).response.status = 400 ↔
      ((BindJSON body).host.Ip = "" ∨ (BindJSON body).host.Username = "" ∨
       (BindJSON body).host.Password = "")) ∧
    ((HandleExecNodeShell sm body rand bound sizeChan).response.status = 400 →
      (HandleExecNodeShell sm body rand bound sizeChan).Sessions = sm ∧
      (HandleExecNodeShell sm body rand bound sizeChan).launched = none) ∧
    (∀ sessionId, (HandleExecNodeShell sm body rand bound sizeChan).response.status ≠ 400 →
      genTerminalSessionId rand = .ok sessionId →
      (HandleExecNodeShell sm body rand bound sizeChan).Sessions.Get sessionId =
        { id := sessionId, bound := some bound, sockJSSession := none,
          sizeChan := some sizeChan } ∧
      (∀ other, other ≠ sessionId →
        (HandleExecNodeShell sm body rand bound sizeChan).Sessions.Get other = sm.Get other) ∧
      (HandleExecNodeShell sm body rand bound sizeChan).launched =
        some { ip := (BindJSON body).host.Ip, username := (BindJSON body).host.Username,
               port := if (BindJSON body).host.Port = 0 then 22
                       else (BindJSON body).host.Port,
               password := (BindJSON body).host.Password, sessionId := sessionId }) := by
  by_cases hrej : (BindJSON body).host.Ip = "" ∨ (BindJSON body).host.Username = "" ∨
      (BindJSON body).host.Password = ""
  · simp [HandleExecNodeShell, hrej, hbind, writtenStatus]
  · cases hgen : genTerminalSessionId rand with
    | error err => simp [HandleExecNodeShell, hrej, hgen, hbind, writtenStatus]
    | ok id =>
      simp only [HandleExecNodeShell, hrej, hgen, hbind, if_false, writtenStatus]
      refine ⟨by simp, by simp, ?_⟩
      intro sessionId _ hid
      cases hid
      exact ⟨SessionMap.Get_Set_same _ _ _,
        fun other ho => SessionMap.Get_Set_other _ _ _ _ ho, rfl⟩

theorem HandleExecNodeShell_spec_witness :
    (HandleExecNodeShell terminalSessions
      "\x7b\"ip\":\"10.0.0.1\",\"username\":\"u\",\"password\":\"p\",\"port\":0\x7d"
      (.ok [0, 1, 2, 3, 4, 5, 6, 7, 8, 9, 10, 11, 12, 13, 14, 255]) 0 1).launched =
      some { ip := "10.0.0.1", username := "u", port := 22, password := "p",
             sessionId := "000102030405060708090a0b0c0d0eff" } :=
  ((HandleExecNodeShell_spec terminalSessions
      "\x7b\"ip\":\"10.0.0.1\",\"username\":\"u\",\"password\":\"p\",\"port\":0\x7d"
      (.ok [0, 1, 2, 3, 4, 5, 6, 7, 8, 9, 10, 11, 12, 13, 14, 255]) 0 1 (by rfl)).2.2
    "000102030405060708090a0b0c0d0eff" (by decide) (by rfl)).2.2

/-! ## The resize loop -/

/-- One turn of the resize loop, as the source writes it: the loop calls `Next`; it is
blocked while nothing can be received, returns on a nil pointer, and otherwise issues a
window change and goes round again. -/
theorem resizePump_Next (sizeChan : SizeChan) :
    resizePump sizeChan =
      match TerminalSession.Next sizeChan with
      | none => { calls := [], exited := false, sizeChan := [] }
      | some (none, rest) => { calls := [], exited := true, sizeChan := rest }
      | some (some next, rest) =>
        { calls := ((next.Height : Int), (next.Width : Int)) :: (resizePump rest).calls,
          exited := (resizePump rest).exited, sizeChan := (resizePump rest).sizeChan } := by
  cases sizeChan with
  | nil => rfl
  | cons v rest => cases v <;> rfl

/-- The loop before a terminator: one window change for each size event, in order; it
returns at the terminator and receives nothing that follows it. -/
theorem resizePump_terminator (before : List TerminalSize) (rest : SizeChan) :
    resizePump (before.map some ++ none :: rest) =
      { calls := before.map (fun s => ((s.Height : Int), (s.Width : Int))),
        exited := true, sizeChan := rest } := by
  induction before with
  | nil => rfl
  | cons s before ih => simp [resizePump, ih]

/-- The loop on size events only: one window change for each, in order, and it has not
returned; it is blocked in `Next`. -/
theorem resizePump_no_terminator (before : List TerminalSize) :
    resizePump (before.map some) =
      { calls := before.map (fun s => ((s.Height : Int), (s.Width : Int))),
        exited := false, sizeChan := [] } := by
  induction before with
  | nil => rfl
  | cons s before ih => simp [resizePump, ih]

/-- Every content of the channel is size events only, or size events up to a first
terminator. -/
theorem SizeChan.split (sizeChan : SizeChan) :
    (∃ before : List TerminalSize, sizeChan = before.map some) ∨
    (∃ (before : List TerminalSize) (rest : SizeChan),
      sizeChan = before.map some ++ none :: rest) := by
  induction sizeChan with
  | nil => exact Or.inl ⟨[], rfl⟩
  | cons v q ih =>
    cases v with
    | none => exact Or.inr ⟨[], q, rfl⟩
    | some s =>
      rcases ih with ⟨before, rfl⟩ | ⟨before, rest, rfl⟩
      · exact Or.inl ⟨s :: before, rfl⟩
      · exact Or.inr ⟨s :: before, rest, rfl⟩

/-- C11: the resize loop returns if and only if it receives the terminator. For every
content of the channel, size events `before` followed by a first nil and anything `rest`
make the loop issue `WindowChange(Height, Width)` once for each event of `before`, in
order, and return at the nil with `rest` not received; size events alone make it issue the
same window changes and not return. `Next` returns the received value itself, so it
returns nil exactly when that value is the terminator. -/
theorem resizePump_exits_iff_terminator :
    (∀ sizeChan : SizeChan, (resizePump sizeChan).exited = true ↔ none ∈ sizeChan) ∧
    (∀ (before : List TerminalSize) (rest : SizeChan),
      resizePump (before.map some ++ none :: rest) =
        { calls := before.map (fun s => ((s.Height : Int), (s.Width : Int))),
          exited := true, sizeChan := rest }) ∧
    (∀ before : List TerminalSize,
      resizePump (before.map some) =
        { calls := before.map (fun s => ((s.Height : Int), (s.Width : Int))),
          exited := false, sizeChan := [] }) ∧
    (∀ (value : Option TerminalSize) (rest : SizeChan),
      TerminalSession.Next (value :: rest) = some (value, rest) ∧
      ((TerminalSession.Next (value :: rest)).map (fun r => r.1) = some none ↔
        value = none)) := by
  refine ⟨?_, resizePump_terminator, resizePump_no_terminator, ?_⟩
  · intro sizeChan
    rcases SizeChan.split sizeChan with ⟨before, rfl⟩ | ⟨before, rest, rfl⟩
    · rw [resizePump_no_terminator]
      simp
    · rw [resizePump_terminator]
      simp
  · intro value rest
    refine ⟨rfl, ?_⟩
    simp [TerminalSession.Next]

/-- Two resizes, the terminator, and a late resize that is never received. -/
theorem resizePump_exits_iff_terminator_witness :
    resizePump [some { Width := 120, Height := 40 }, some { Width := 80, Height := 24 },
                none, some { Width := 1, Height := 1 }] =
      { calls := [(40, 120), (24, 80)], exited := true,
        sizeChan := [some { Width := 1, Height := 1 }] } ∧
    (resizePump [some { Width := 120, Height := 40 },
                 some { Width := 80, Height := 24 }]).exited = false :=
  ⟨resizePump_exits_iff_terminator.2.1
      [{ Width := 120, Height := 40 }, { Width := 80, Height := 24 }]
      [some { Width := 1, Height := 1 }],
   congrArg PumpRun.exited (resizePump_exits_iff_terminator.2.2.1
      [{ Width := 120, Height := 40 }, { Width := 80, Height := 24 }])⟩
